import Mathlib

/-!
# Verification of the n8n Kubernetes node's wait/run/trigger engine

This file gives a shallow embedding, in Lean 4, of the condition evaluators,
the watch-wait state machine, the job pipelines and the output/manifest
helpers of the `n8n-nodes-k8s` package, and proves (or refutes) the
specification claims about them.

The embedded code lives in:
* `src/nodes/Kubernetes/utils.ts` (`K8SClient`): `waitForResource` (inline
  condition ladder and watch machine), `runPodAndGetOutput`,
  `runJobAndGetOutput`, `triggerCronJob`, `getJobPodLogs`, `formatOutput`,
  `createResource`/`cleanResourceData`;
* `src/nodes/Kubernetes/helpers.ts` (`OutputHelper`, `ResourceHelper`);
* the `ResourceManager` module: `waitForResourceCondition`, `checkCondition`.

JavaScript asynchrony is modelled as explicit event traces: a wait processes a
list of `WatchEvent`s (stream updates, the deadline timer firing, stream
errors) and each call of `resolve`/`reject` appends an outcome to an emission
list; the promise's settled value is the first emission.
-/

/-! ## Kubernetes object model (the fields the embedded code reads) -/

/-- One entry of `status.conditions` as read by the evaluators. -/
structure K8sCondition where
  type : String
  status : String
deriving DecidableEq

/-- The `status` subobject fields read by the embedded code. -/
structure K8sStatus where
  conditions : Option (List K8sCondition)
  phase : Option String
  readyReplicas : Option Nat
  currentReplicas : Option Nat
  updatedReplicas : Option Nat
  succeeded : Option Nat
  failed : Option Nat
deriving DecidableEq

/-- A watched object: `metadata.name`, `spec.replicas` and `status`. -/
structure K8sObject where
  name : Option String
  specReplicas : Option Nat
  status : Option K8sStatus
deriving DecidableEq

/-- `obj.status?.conditions || []`. -/
def statusConditions (obj : K8sObject) : List K8sCondition :=
  match obj.status with
  | some st => st.conditions.getD []
  | none => []

/-- `obj.status?.phase`. -/
def statusPhase (obj : K8sObject) : Option String :=
  obj.status.bind (fun st => st.phase)

/-- `obj.status?.readyReplicas || 0` (and likewise the other counters). -/
def readyReplicasOf (obj : K8sObject) : Nat :=
  (obj.status.bind (fun st => st.readyReplicas)).getD 0

def currentReplicasOf (obj : K8sObject) : Nat :=
  (obj.status.bind (fun st => st.currentReplicas)).getD 0

def updatedReplicasOf (obj : K8sObject) : Nat :=
  (obj.status.bind (fun st => st.updatedReplicas)).getD 0

/-- `obj.spec?.replicas || 0`. -/
def specReplicasOf (obj : K8sObject) : Nat :=
  obj.specReplicas.getD 0

/-- `(obj.status?.conditions || []).find(c => c.type === t)?.status === 'True'` —
the generic `status.conditions` lookup shared by both evaluators. -/
def genericConditionTrue (obj : K8sObject) (t : String) : Bool :=
  match (statusConditions obj).find? (fun c => c.type == t) with
  | some c => c.status == "True"
  | none => false

/-- ASCII lower-casing of one character (`String.prototype.toLowerCase` on
the ASCII kind names the node accepts). -/
def lowerChar (c : Char) : Char :=
  if decide ('A' ≤ c) && decide (c ≤ 'Z') then Char.ofNat (c.toNat + 32) else c

/-- `kind.toLowerCase()`. -/
def toLowerStr (s : String) : String :=
  String.mk (s.toList.map lowerChar)

/-! ## Condition evaluators

`waitForResourceConditionMet` embeds the inline if/else ladder of
`K8SClient.waitForResource` (utils.ts lines 1089–1145).
`checkCondition` embeds `ResourceManager.checkCondition`, a `switch` on the
condition name whose fall-through (`break`) paths return `false`. -/

/-- The condition ladder inside `K8SClient.waitForResource`. -/
def waitForResourceConditionMet (kind condition : String) (obj : K8sObject) : Bool :=
  let kindL := toLowerStr kind
  if condition == "Ready" && kindL == "pod" then
    genericConditionTrue obj "Ready"
  else if condition == "Available" && kindL == "deployment" then
    genericConditionTrue obj "Available"
  else if condition == "Complete" && kindL == "job" then
    genericConditionTrue obj "Complete"
  else if condition == "Failed" && kindL == "job" then
    genericConditionTrue obj "Failed"
  else if condition == "Succeeded" && kindL == "pod" then
    statusPhase obj == some "Succeeded"
  else if condition == "Failed" && kindL == "pod" then
    statusPhase obj == some "Failed"
  else if kindL == "statefulset" then
    let replicas := specReplicasOf obj
    let readyReplicas := readyReplicasOf obj
    let currentReplicas := currentReplicasOf obj
    let updatedReplicas := updatedReplicasOf obj
    if condition == "Ready" || condition == "Available" then
      decide (0 < replicas) && readyReplicas == replicas
    else if condition == "Complete" then
      decide (0 < replicas) && currentReplicas == replicas && updatedReplicas == replicas
    else if condition == "Succeeded" then
      decide (0 < replicas) && readyReplicas == replicas && updatedReplicas == replicas
    else
      decide (0 < replicas) && readyReplicas == replicas
  else
    genericConditionTrue obj condition

/-- `ResourceManager.checkCondition` (switch over the condition name,
`break` paths end in `return false`). -/
def checkCondition (obj : K8sObject) (condition kind : String) : Bool :=
  let kindL := toLowerStr kind
  if condition == "Ready" then
    if kindL == "pod" then genericConditionTrue obj "Ready" else false
  else if condition == "Available" then
    if kindL == "deployment" then genericConditionTrue obj "Available" else false
  else if condition == "Complete" then
    if kindL == "job" then genericConditionTrue obj "Complete" else false
  else if condition == "Failed" then
    if kindL == "job" then genericConditionTrue obj "Failed"
    else if kindL == "pod" then statusPhase obj == some "Failed"
    else false
  else if condition == "Succeeded" then
    if kindL == "pod" then statusPhase obj == some "Succeeded" else false
  else
    genericConditionTrue obj condition

/-- The (condition, lower-cased kind) pairs handled by a dedicated rule in the
`waitForResource` ladder, apart from the statefulset replica rules. -/
def dedicatedPair (condition kindL : String) : Bool :=
  (condition == "Ready" && kindL == "pod") ||
  (condition == "Available" && kindL == "deployment") ||
  (condition == "Complete" && kindL == "job") ||
  (condition == "Failed" && kindL == "job") ||
  (condition == "Succeeded" && kindL == "pod") ||
  (condition == "Failed" && kindL == "pod")

/-- The condition names that `checkCondition` dispatches on in its `switch`. -/
def dedicatedConditionName (condition : String) : Bool :=
  condition == "Ready" || condition == "Available" || condition == "Complete" ||
  condition == "Failed" || condition == "Succeeded"

/-- A `status` object with every field absent. -/
def emptyK8sStatus : K8sStatus :=
  { conditions := none, phase := none, readyReplicas := none,
    currentReplicas := none, updatedReplicas := none,
    succeeded := none, failed := none }

/-! ## Watch-wait state machine

`K8SClient.waitForResource` (utils.ts lines 1003–1182) and
`ResourceManager.waitForResourceCondition` run the same machine; the only
structural difference is that the latter routes `resolve`/`reject` through
`OutputHelper.createSafePromiseHandlers` (a one-shot latch) while the former
calls the bare promise executor functions.  The machine is therefore
parameterised by a `latched` flag.  Each processed event may append outcomes
(calls of `resolve`/`reject`) to an emission list. -/

/-- A JavaScript error value as inspected by the embedded code
(`err.message`, `err.type`). -/
structure JsError where
  message : String
  etype : String
deriving DecidableEq

/-- `e.message === "aborted" || e.type === "aborted"`. -/
def isAbortedError (e : JsError) : Bool :=
  e.message == "aborted" || e.etype == "aborted"

/-- `isExpectedAbortError` from utils.ts / `OutputHelper.isExpectedAbortError`. -/
def isExpectedAbortError (err : JsError) (completed : Bool) : Bool :=
  isAbortedError err && completed

/-- Events delivered to a running wait: a streamed object update, the deadline
timer firing, or a stream-error callback. -/
inductive WatchEvent where
  | update (obj : K8sObject)
  | timerFire
  | streamError (err : JsError)
deriving DecidableEq

/-- A terminal outcome produced by one call of `resolve`/`reject`. -/
inductive WatchOutcome where
  | met (obj : K8sObject)
  | timedOut (kind name condition : String)
  | errored (err : JsError)
deriving DecidableEq

/-- The mutable local state of one wait: the `resourceCompleted` flag, whether
`clearTimeout` has run, whether the one-shot timer has already fired, and the
`resolved` flag of the safe promise handlers. -/
structure WatchMachineState where
  resourceCompleted : Bool
  timerCleared : Bool
  timerFired : Bool
  settled : Bool
deriving DecidableEq

def initWatchState : WatchMachineState :=
  { resourceCompleted := false, timerCleared := false,
    timerFired := false, settled := false }

/-- One event handler dispatch, before any latch is applied: the watch
callback (filter by name, evaluate the condition, set `resourceCompleted`,
clear the timer, resolve `met`), the deadline callback (guarded by
`resourceCompleted`), and the error callback (expected-abort suppression,
otherwise clear the timer and reject). -/
def watchStepCore (condMet : K8sObject → Bool) (kind name condition : String)
    (s : WatchMachineState) : WatchEvent → WatchMachineState × List WatchOutcome
  | .update obj =>
    if obj.name == some name then
      if condMet obj then
        ({ s with resourceCompleted := true, timerCleared := true }, [.met obj])
      else (s, [])
    else (s, [])
  | .timerFire =>
    if s.timerCleared || s.timerFired then (s, [])
    else if s.resourceCompleted then ({ s with timerFired := true }, [])
    else ({ s with timerFired := true }, [.timedOut kind name condition])
  | .streamError err =>
    if isExpectedAbortError err s.resourceCompleted then (s, [])
    else ({ s with timerCleared := true }, [.errored err])

/-- One step of the machine.  When `latched` is true, emissions after the
first are discarded (`createSafePromiseHandlers`); the state evolves
identically either way. -/
def watchStep (latched : Bool) (condMet : K8sObject → Bool)
    (kind name condition : String) (s : WatchMachineState) (e : WatchEvent) :
    WatchMachineState × List WatchOutcome :=
  let r := watchStepCore condMet kind name condition s e
  ({ r.1 with settled := s.settled || !r.2.isEmpty },
   if latched && s.settled then [] else r.2)

/-- Process a whole event trace, collecting every emission in order. -/
def watchRun (latched : Bool) (condMet : K8sObject → Bool)
    (kind name condition : String) :
    WatchMachineState → List WatchEvent → List WatchOutcome
  | _, [] => []
  | s, e :: es =>
    let r := watchStep latched condMet kind name condition s e
    r.2 ++ watchRun latched condMet kind name condition r.1 es

/-- Emissions of a fresh wait over an event trace. -/
def watchEmissions (latched : Bool) (condMet : K8sObject → Bool)
    (kind name condition : String) (events : List WatchEvent) : List WatchOutcome :=
  watchRun latched condMet kind name condition initWatchState events

/-- `K8SClient.waitForResource`: unlatched machine with the inline ladder. -/
def waitForResourceEmissions (apiKind name condition : String)
    (events : List WatchEvent) : List WatchOutcome :=
  watchEmissions false (waitForResourceConditionMet apiKind condition)
    apiKind name condition events

/-- `ResourceManager.waitForResourceCondition`: latched machine with
`checkCondition`. -/
def waitForResourceConditionEmissions (apiKind name condition : String)
    (events : List WatchEvent) : List WatchOutcome :=
  watchEmissions true (fun obj => checkCondition obj condition apiKind)
    apiKind name condition events

/-- The promise settles with the first emission. -/
def promiseSettlement (emissions : List WatchOutcome) : Option WatchOutcome :=
  emissions.head?

/-- `timeout = 300000 // 5 minutes default timeout` in `waitForResource`
(milliseconds). -/
def waitForResourceDefaultTimeoutMs : Nat := 300000

def isTimedOutOutcome : WatchOutcome → Bool
  | .timedOut _ _ _ => true
  | _ => false

def isMetOutcome : WatchOutcome → Bool
  | .met _ => true
  | _ => false

/-- No `timedOut` outcome occurs anywhere after a `met` outcome. -/
def noTimedOutAfterMet : List WatchOutcome → Bool
  | [] => true
  | o :: rest =>
    (!(isMetOutcome o) || !(rest.any isTimedOutOutcome)) && noTimedOutAfterMet rest

/-! ## Name validation and the job pipelines (runJobAndGetOutput, triggerCronJob)

Cluster interaction is abstracted: the result of each cluster call is a
parameter, and the list of cluster calls actually attempted is returned
alongside the result, in order. -/

/-- The whitespace characters removed by JavaScript's `String.prototype.trim`
(WhiteSpace and LineTerminator code points). -/
def jsWhitespace (c : Char) : Bool :=
  c == ' ' || c == '\t' || c == '\n' || c == '\r' || c == '\x0b' || c == '\x0c' ||
  c == '\u00a0' || c == '\u1680' || c == '\u2000' || c == '\u2001' ||
  c == '\u2002' || c == '\u2003' || c == '\u2004' || c == '\u2005' ||
  c == '\u2006' || c == '\u2007' || c == '\u2008' || c == '\u2009' ||
  c == '\u200a' || c == '\u2028' || c == '\u2029' || c == '\u202f' ||
  c == '\u205f' || c == '\u3000' || c == '\ufeff'

/-- `!s || s.trim() === ""`. -/
def isBlankString (s : String) : Bool :=
  s.toList.all jsWhitespace

/-- `[a-z0-9]`. -/
def isLowerAlnum (c : Char) : Bool :=
  (decide ('a' ≤ c) && decide (c ≤ 'z')) || (decide ('0' ≤ c) && decide (c ≤ '9'))

/-- `[-a-z0-9]`. -/
def isNameBodyChar (c : Char) : Bool :=
  c == '-' || isLowerAlnum c

/-- The test `/^[a-z0-9]([-a-z0-9]*[a-z0-9])?$/.test(s)` used by both
pipelines: one lower-alphanumeric character, or such a character followed by
name-body characters and ending in a lower-alphanumeric character. -/
def dns1123Matches (s : String) : Bool :=
  match s.toList with
  | [] => false
  | [c] => isLowerAlnum c
  | c :: rest =>
    isLowerAlnum c && rest.dropLast.all isNameBodyChar &&
      (match rest.getLast? with
       | some d => isLowerAlnum d
       | none => false)

/-- Cluster calls made by the job pipelines, in order. -/
inductive ClusterCall where
  | readCronJob (name : String)
  | createJob (name : String)
deriving DecidableEq

/-- The errors thrown by the job pipelines before and at job creation. -/
inductive JobRunError where
  | emptyJobName
  | emptyImage
  | invalidName (name : String)
  | nameTooLong (name : String)
  | invalidJobTemplate (cronJobName : String)
  | readCronJobFailed (cronJobName : String)
  | createFailed (name : String)
deriving DecidableEq

/-- The errors thrown by the fail-fast input validation, as opposed to
wrapped cluster-call failures. -/
def isValidationError : JobRunError → Bool
  | .emptyJobName => true
  | .emptyImage => true
  | .invalidName _ => true
  | .nameTooLong _ => true
  | _ => false

/-- `runJobAndGetOutput` up to and including the `createNamespacedJob` call
(utils.ts lines 219–304): empty-name check, empty-image check, DNS-1123 check
on the base name, random-suffix derivation (the suffix is a parameter), and
the 63-character cap on the final name.  Returns the outcome and the cluster
calls attempted. -/
def runJobCreatePhase (jobName image suffix : String) (createOk : Bool) :
    Except JobRunError String × List ClusterCall :=
  if isBlankString jobName then (.error .emptyJobName, [])
  else if isBlankString image then (.error .emptyImage, [])
  else if !dns1123Matches jobName then (.error (.invalidName jobName), [])
  else
    let finalJobName := jobName ++ "-" ++ suffix
    if decide (63 < finalJobName.length) then (.error (.nameTooLong finalJobName), [])
    else if createOk then (.ok finalJobName, [.createJob finalJobName])
    else (.error (.createFailed finalJobName), [.createJob finalJobName])

/-- The part of a read CronJob that the validation path inspects:
whether `cronJob.spec?.jobTemplate?.spec` exists. -/
structure CronJobRead where
  hasJobTemplateSpec : Bool
deriving DecidableEq

/-- `triggerCronJob` up to and including the `createNamespacedJob` call
(utils.ts lines 1527–1684): read the CronJob (a cluster call), check its
job template, derive `cronJobName + "-" + unixSeconds`, DNS-1123 check and
63-character cap on the derived name, then create. -/
def triggerCronJobCreatePhase (cronJobName : String) (timestamp : Nat)
    (readResult : Option CronJobRead) (createOk : Bool) :
    Except JobRunError String × List ClusterCall :=
  match readResult with
  | none => (.error (.readCronJobFailed cronJobName), [.readCronJob cronJobName])
  | some cj =>
    if !cj.hasJobTemplateSpec then
      (.error (.invalidJobTemplate cronJobName), [.readCronJob cronJobName])
    else
      let finalJobName := cronJobName ++ "-" ++ toString timestamp
      if !dns1123Matches finalJobName then
        (.error (.invalidName finalJobName), [.readCronJob cronJobName])
      else if decide (63 < finalJobName.length) then
        (.error (.nameTooLong finalJobName), [.readCronJob cronJobName])
      else if createOk then
        (.ok finalJobName, [.readCronJob cronJobName, .createJob finalJobName])
      else
        (.error (.createFailed finalJobName), [.readCronJob cronJobName, .createJob finalJobName])

/-! ## getJobPodLogs (utils.ts lines 1829–1890)

The pod listing for a selector is abstracted as a function from selector to
an exceptional result; the returned selector list records which listings were
attempted, in order. -/

/-- A pod as inspected by `getJobPodLogs`: `metadata.name`. -/
structure PodInfo where
  name : Option String
deriving DecidableEq

def jobNameSelector (jobName : String) : String :=
  "job-name=" ++ jobName

def batchJobNameSelector (jobName : String) : String :=
  "batch.kubernetes.io/job-name=" ++ jobName

/-- The continuation after a successful pod listing: the zero-pods message,
the missing-pod-name message, or log retrieval (abstracted as `podLogs`). -/
def getJobPodLogsAfterList (jobName : String) (podLogs : String → String)
    (pods : List PodInfo) : String :=
  match pods with
  | [] => "No pods found for job " ++ jobName
  | p :: _ =>
    match p.name with
    | none => "No pod name found for job " ++ jobName
    | some podName => podLogs podName

/-- `getJobPodLogs`: list pods with `job-name=<jobName>`; only when that
listing THROWS, retry with `batch.kubernetes.io/job-name=<jobName>`; then run
the common continuation.  Returns the outcome and the selectors queried. -/
def getJobPodLogs (jobName : String)
    (listPods : String → Except JsError (List PodInfo))
    (podLogs : String → String) :
    Except JsError String × List String :=
  let sel1 := jobNameSelector jobName
  match listPods sel1 with
  | .ok pods => (.ok (getJobPodLogsAfterList jobName podLogs pods), [sel1])
  | .error _ =>
    let sel2 := batchJobNameSelector jobName
    match listPods sel2 with
    | .ok pods => (.ok (getJobPodLogsAfterList jobName podLogs pods), [sel1, sel2])
    | .error e => (.error e, [sel1, sel2])

/-! ## CronJob override merge (triggerCronJob, utils.ts lines 1583–1630) -/

/-- A container environment entry `{ name, value }`. -/
structure EnvVar where
  name : String
  value : String
deriving DecidableEq

/-- JavaScript `Array.prototype.indexOf` on a list of strings. -/
def jsIndexOf (l : List String) (s : String) : Option Nat :=
  match l with
  | [] => none
  | x :: xs => if x == s then some 0 else (jsIndexOf xs s).map (fun i => i + 1)

/-- The env merge of `triggerCronJob`: snapshot the existing names, filter the
override entries (`env.name && env.value !== undefined`), then for each kept
entry either overwrite `existingEnvs[indexOf name]` or push.  The name index
is taken in the snapshot, not in the updated array. -/
def mergeEnvVars (existing overrides : List EnvVar) : List EnvVar :=
  let existingEnvNames := existing.map EnvVar.name
  let newEnvs := overrides.filter (fun e => e.name != "")
  newEnvs.foldl
    (fun acc e =>
      match jsIndexOf existingEnvNames e.name with
      | some i => acc.set i e
      | none => acc ++ [e])
    existing

/-- Modelled from the spec: the order-preserving update-or-append merge as the
claim words it — an override entry whose name matches an entry of the current
list replaces it in place, any other entry is appended. -/
def updateOrAppendSpec (existing overrides : List EnvVar) : List EnvVar :=
  overrides.foldl
    (fun acc e =>
      if acc.any (fun x => x.name == e.name) then
        acc.map (fun x => if x.name == e.name then e else x)
      else acc ++ [e])
    existing

/-- A container of the cloned job template, as touched by the overrides. -/
structure Container where
  name : String
  command : Option (List String)
  args : Option (List String)
  env : Option (List EnvVar)
deriving DecidableEq

/-- The optional override set of `triggerCronJob`. -/
structure JobOverrides where
  command : Option (List String)
  args : Option (List String)
  envs : Option (List EnvVar)
deriving DecidableEq

/-- The per-container override application of `triggerCronJob`: command and
args replace wholesale when present and non-empty; envs merge via
`mergeEnvVars` when present and non-empty. -/
def applyOverridesToContainer (ov : JobOverrides) (c : Container) : Container :=
  let c1 :=
    match ov.command with
    | some cmd => if cmd.isEmpty then c else { c with command := some cmd }
    | none => c
  let c2 :=
    match ov.args with
    | some a => if a.isEmpty then c1 else { c1 with args := some a }
    | none => c1
  match ov.envs with
  | some envs =>
    if envs.isEmpty then c2
    else { c2 with env := some (mergeEnvVars (c2.env.getD []) envs) }
  | none => c2

/-- `jobTemplate.spec.template.spec.containers.forEach(...)`: the override is
applied to every container of the cloned template. -/
def applyOverrides (ov : JobOverrides) (containers : List Container) : List Container :=
  containers.map (applyOverridesToContainer ov)

/-! ## runPodAndGetOutput (utils.ts lines 73–197)

The watch inside `runPodAndGetOutput` has no deadline timer; on a terminal
phase it fetches the logs and resolves (or rejects with the log error), and a
non-expected-abort stream error rejects.  The `catch` converts an aborted
settlement into an empty result; the `finally` always attempts exactly one
pod deletion and swallows its failure. -/

/-- `phase === "Succeeded" || phase === "Failed"`. -/
def podPhaseCompleted (obj : K8sObject) : Bool :=
  statusPhase obj == some "Succeeded" || statusPhase obj == some "Failed"

/-- Events seen by the pod-run watch (it has no timer). -/
inductive PodWatchEvent where
  | update (obj : K8sObject)
  | streamError (err : JsError)
deriving DecidableEq

/-- One dispatch of the pod-run watch callbacks.  State is the `podCompleted`
flag; emissions are the `resolve`/`reject` calls.  `logsResult` abstracts
`retrievePodLogs` for the created pod. -/
def runPodWatchStep (podName : String) (logsResult : Except JsError String)
    (s : Bool) : PodWatchEvent → Bool × List (Except JsError String)
  | .update obj =>
    if obj.name == some podName then
      if podPhaseCompleted obj then (true, [logsResult])
      else (s, [])
    else (s, [])
  | .streamError err =>
    if isExpectedAbortError err s then (s, [])
    else (s, [.error err])

def runPodWatchRun (podName : String) (logsResult : Except JsError String) :
    Bool → List PodWatchEvent → List (Except JsError String)
  | _, [] => []
  | s, e :: es =>
    let r := runPodWatchStep podName logsResult s e
    r.2 ++ runPodWatchRun podName logsResult r.1 es

/-- The settlement of the inner promise of `runPodAndGetOutput`: the first
`resolve`/`reject` call wins. -/
def runPodWatchSettlement (podName : String) (logsResult : Except JsError String)
    (events : List PodWatchEvent) : Option (Except JsError String) :=
  (runPodWatchRun podName logsResult false events).head?

/-- `runPodAndGetOutput` after successful pod creation: await the watch
promise, turn an aborted error into the empty result, rethrow other errors,
and in `finally` attempt one `deleteNamespacedPod` whose failure is logged
and swallowed.  Returns `none` (and no delete) when the promise never
settles, otherwise the result together with the number of delete calls. -/
def runPodAndGetOutput (podName : String) (logsResult : Except JsError String)
    (events : List PodWatchEvent) (deleteResult : Except JsError Unit) :
    Option (Except JsError String) × Nat :=
  match runPodWatchSettlement podName logsResult events with
  | none => (none, 0)
  | some settled =>
    let primary : Except JsError String :=
      match settled with
      | .ok logs => .ok logs
      | .error e => if isAbortedError e then .ok "" else .error e
    let afterCleanup : Except JsError String :=
      match deleteResult with
      | .ok _ => primary
      | .error _ => primary
    (some afterCleanup, 1)

/-! ## Output formatting (K8SClient.formatOutput / OutputHelper.formatOutput)

`JSON.parse` is embedded as a recursive-descent parser over the character
list, with a fuel argument for termination.  Numbers keep their lexeme (the
formatter never inspects numeric values). -/

/-- A parsed JSON value.  Numbers carry their source lexeme. -/
inductive Json where
  | null
  | bool (b : Bool)
  | num (lexeme : String)
  | str (s : String)
  | arr (items : List Json)
  | obj (fields : List (String × Json))

/-- The whitespace skipped by the JSON grammar. -/
def jsonWs (c : Char) : Bool :=
  c == ' ' || c == '\t' || c == '\n' || c == '\r'

def skipWs : List Char → List Char
  | [] => []
  | c :: cs => if jsonWs c then skipWs cs else c :: cs

/-- Single-character JSON string escapes. -/
def jsonEscapeChar : Char → Option Char
  | '"' => some '"'
  | '\\' => some '\\'
  | '/' => some '/'
  | 'b' => some '\x08'
  | 'f' => some '\x0c'
  | 'n' => some '\n'
  | 'r' => some '\r'
  | 't' => some '\t'
  | _ => none

def jsonHexDigit (c : Char) : Option Nat :=
  if decide ('0' ≤ c) && decide (c ≤ '9') then some (c.toNat - 48)
  else if decide ('a' ≤ c) && decide (c ≤ 'f') then some (c.toNat - 87)
  else if decide ('A' ≤ c) && decide (c ≤ 'F') then some (c.toNat - 55)
  else none

/-- Parse the body of a JSON string after the opening quote; returns the
decoded characters and the remaining input. -/
def parseJsonStringBody : Nat → List Char → Option (List Char × List Char)
  | 0, _ => none
  | _, [] => none
  | fuel + 1, c :: cs =>
    if c == '"' then some ([], cs)
    else if c == '\\' then
      match cs with
      | 'u' :: h1 :: h2 :: h3 :: h4 :: cs2 =>
        match jsonHexDigit h1, jsonHexDigit h2, jsonHexDigit h3, jsonHexDigit h4 with
        | some a, some b, some d, some e =>
          match parseJsonStringBody fuel cs2 with
          | some (rest, rem) =>
            some (Char.ofNat (a * 4096 + b * 256 + d * 16 + e) :: rest, rem)
          | none => none
        | _, _, _, _ => none
      | e :: cs2 =>
        match jsonEscapeChar e with
        | some ec =>
          match parseJsonStringBody fuel cs2 with
          | some (rest, rem) => some (ec :: rest, rem)
          | none => none
        | none => none
      | [] => none
    else if decide (c.toNat < 32) then none
    else
      match parseJsonStringBody fuel cs with
      | some (rest, rem) => some (c :: rest, rem)
      | none => none

/-- Take the longest prefix of decimal digits. -/
def takeDigits : List Char → List Char × List Char
  | [] => ([], [])
  | c :: cs =>
    if c.isDigit then
      let r := takeDigits cs
      (c :: r.1, r.2)
    else ([], c :: cs)

/-- `0 | [1-9][0-9]*`. -/
def parseJsonIntPart : List Char → Option (List Char × List Char)
  | [] => none
  | c :: cs =>
    if c == '0' then some (['0'], cs)
    else if c.isDigit then
      let r := takeDigits cs
      some (c :: r.1, r.2)
    else none

/-- `('.' [0-9]+)?`. -/
def parseJsonFracPart : List Char → Option (List Char × List Char)
  | '.' :: cs =>
    match cs with
    | c :: _ =>
      if c.isDigit then
        let r := takeDigits cs
        some ('.' :: r.1, r.2)
      else none
    | [] => none
  | cs => some ([], cs)

/-- `([eE] [+-]? [0-9]+)?`. -/
def parseJsonExpPart (cs : List Char) : Option (List Char × List Char) :=
  match cs with
  | c :: cs1 =>
    if c == 'e' || c == 'E' then
      let signAndRest : List Char × List Char :=
        match cs1 with
        | s :: cs2 => if s == '+' || s == '-' then ([s], cs2) else ([], cs1)
        | [] => ([], [])
      match signAndRest.2 with
      | d :: _ =>
        if d.isDigit then
          let r := takeDigits signAndRest.2
          some (c :: signAndRest.1 ++ r.1, r.2)
        else none
      | [] => none
    else some ([], cs)
  | [] => some ([], [])

/-- A JSON number lexeme: optional minus, integer part, optional fraction and
exponent. -/
def parseJsonNumber (cs : List Char) : Option (List Char × List Char) :=
  let signAndRest : List Char × List Char :=
    match cs with
    | '-' :: rest => (['-'], rest)
    | _ => ([], cs)
  match parseJsonIntPart signAndRest.2 with
  | none => none
  | some (ip, cs2) =>
    match parseJsonFracPart cs2 with
    | none => none
    | some (fp, cs3) =>
      match parseJsonExpPart cs3 with
      | none => none
      | some (ep, cs4) => some (signAndRest.1 ++ ip ++ fp ++ ep, cs4)

mutual

/-- Parse one JSON value at the head of the input (no leading whitespace). -/
def parseJsonValue : Nat → List Char → Option (Json × List Char)
  | 0, _ => none
  | _, [] => none
  | fuel + 1, c :: cs =>
    if c == 'n' then
      match cs with
      | 'u' :: 'l' :: 'l' :: r => some (.null, r)
      | _ => none
    else if c == 't' then
      match cs with
      | 'r' :: 'u' :: 'e' :: r => some (.bool true, r)
      | _ => none
    else if c == 'f' then
      match cs with
      | 'a' :: 'l' :: 's' :: 'e' :: r => some (.bool false, r)
      | _ => none
    else if c == '"' then
      match parseJsonStringBody fuel cs with
      | some (chars, rem) => some (.str (String.mk chars), rem)
      | none => none
    else if c == '\x5b' then
      let cs1 := skipWs cs
      match cs1 with
      | '\x5d' :: r => some (.arr [], r)
      | _ => parseJsonArrayItems fuel cs1 []
    else if c == '\x7b' then
      let cs1 := skipWs cs
      match cs1 with
      | '\x7d' :: r => some (.obj [], r)
      | _ => parseJsonObjectItems fuel cs1 []
    else if c == '-' || c.isDigit then
      match parseJsonNumber (c :: cs) with
      | some (lex, rem) => some (.num (String.mk lex), rem)
      | none => none
    else none

/-- Parse the remaining comma-separated items of a non-empty array. -/
def parseJsonArrayItems : Nat → List Char → List Json → Option (Json × List Char)
  | 0, _, _ => none
  | fuel + 1, cs, acc =>
    match parseJsonValue fuel cs with
    | none => none
    | some (v, rem) =>
      match skipWs rem with
      | ',' :: r => parseJsonArrayItems fuel (skipWs r) (acc ++ [v])
      | '\x5d' :: r => some (.arr (acc ++ [v]), r)
      | _ => none

/-- Parse the remaining members of a non-empty object. -/
def parseJsonObjectItems : Nat → List Char → List (String × Json) →
    Option (Json × List Char)
  | 0, _, _ => none
  | fuel + 1, cs, acc =>
    match cs with
    | '"' :: cs1 =>
      match parseJsonStringBody fuel cs1 with
      | none => none
      | some (key, rem) =>
        match skipWs rem with
        | ':' :: r =>
          match parseJsonValue fuel (skipWs r) with
          | none => none
          | some (v, rem2) =>
            match skipWs rem2 with
            | ',' :: r2 =>
              parseJsonObjectItems fuel (skipWs r2) (acc ++ [(String.mk key, v)])
            | '\x7d' :: r2 => some (.obj (acc ++ [(String.mk key, v)]), r2)
            | _ => none
        | _ => none
    | _ => none

end

/-- `JSON.parse`: skip leading whitespace, parse one value, and require that
only whitespace remains. -/
def parseJson (s : String) : Option Json :=
  let cs := s.toList
  match parseJsonValue (cs.length + 1) (skipWs cs) with
  | some (j, rest) =>
    match skipWs rest with
    | [] => some j
    | _ => none
  | none => none

/-- A value passing through `formatOutput`: either a string or an already
structured (non-string) value. -/
inductive OutputValue where
  | str (s : String)
  | json (j : Json)

/-- `K8SClient.formatOutput` / `OutputHelper.formatOutput`: non-strings pass
through; empty or all-whitespace strings pass through; otherwise try
`JSON.parse` and fall back to the raw string. -/
def formatOutput : OutputValue → OutputValue
  | .json j => .json j
  | .str s =>
    if isBlankString s then .str s
    else
      match parseJson s with
      | some j => .json j
      | none => .str s

/-- The value resolved by `retrievePodLogs` for accumulated log text
(both the stream-end and the watchdog-timeout paths). -/
def retrievePodLogsValue (logs : String) : OutputValue :=
  formatOutput (.str logs)

/-- The `output` field of the `runJobAndGetOutput` result. -/
def runJobOutputValue (output : String) : OutputValue :=
  formatOutput (.str output)

/-- The `output` field of the `triggerCronJob` result. -/
def triggerCronJobOutputValue (output : String) : OutputValue :=
  formatOutput (.str output)

/-! ## Manifest cleaning and createResource (utils.ts lines 1892–2300)

JavaScript objects with string keys are modelled as association lists; key
assignment updates in place or appends.  `cleanResourceData` starts from a
deep copy (`JSON.parse(JSON.stringify(...))`), so the caller's manifest is
never written through; `createResourcePrepare` returns both the caller's
object as it stands after the call and the body sent to the cluster. -/

/-- `obj[k] = v` on a JavaScript object: overwrite in place or append. -/
def jsObjectSet (l : List (String × String)) (k v : String) :
    List (String × String) :=
  if l.any (fun p => p.1 == k) then
    l.map (fun p => if p.1 == k then (p.1, v) else p)
  else l ++ [(k, v)]

/-- Association-list key lookup. -/
def lookupKey (l : List (String × String)) (k : String) : Option String :=
  (l.find? (fun p => p.1 == k)).map (fun p => p.2)

/-- `metadata` with the runtime fields the cleaner deletes. -/
structure ManifestMetadata where
  name : Option String
  labels : Option (List (String × String))
  annotations : Option (List (String × String))
  creationTimestamp : Option String
  deletionTimestamp : Option String
  resourceVersion : Option String
  uid : Option String
  generation : Option Nat
  managedFields : Option String
  ownerReferences : Option String
  finalizers : Option String
  selfLink : Option String
deriving DecidableEq

/-- `spec.template.metadata` as touched by the code. -/
structure TemplateMetadata where
  labels : Option (List (String × String))
  creationTimestamp : Option String
deriving DecidableEq

/-- `spec.template`. -/
structure PodTemplate where
  metadata : Option TemplateMetadata
deriving DecidableEq

/-- A container as touched by the pod-specific cleaning. -/
structure ManifestContainer where
  name : String
  terminationMessagePath : Option String
  terminationMessagePolicy : Option String
deriving DecidableEq

/-- `spec` as touched by the code. -/
structure ManifestSpec where
  template : Option PodTemplate
  nodeName : Option String
  containers : Option (List ManifestContainer)
deriving DecidableEq

/-- A manifest passed to `createResource`. -/
structure Manifest where
  kind : Option String
  metadata : Option ManifestMetadata
  spec : Option ManifestSpec
  status : Option String
deriving DecidableEq

def emptyManifestMetadata : ManifestMetadata :=
  { name := none, labels := none, annotations := none,
    creationTimestamp := none, deletionTimestamp := none,
    resourceVersion := none, uid := none, generation := none,
    managedFields := none, ownerReferences := none,
    finalizers := none, selfLink := none }

def emptyTemplateMetadata : TemplateMetadata :=
  { labels := none, creationTimestamp := none }

/-- Delete the two system annotations, then drop the annotations object if it
became empty. -/
def cleanAnnotations (anns : List (String × String)) :
    Option (List (String × String)) :=
  let kept := anns.filter (fun p =>
    p.1 != "kubectl.kubernetes.io/last-applied-configuration" &&
    p.1 != "deployment.kubernetes.io/revision")
  if kept.isEmpty then none else some kept

/-- The metadata part of `cleanResourceData`: delete the nine runtime fields
and clean the annotations. -/
def cleanMetadata (m : ManifestMetadata) : ManifestMetadata :=
  { m with
    creationTimestamp := none, deletionTimestamp := none,
    resourceVersion := none, uid := none, generation := none,
    managedFields := none, ownerReferences := none,
    finalizers := none, selfLink := none,
    annotations := m.annotations.bind cleanAnnotations }

/-- `delete cleaned.spec.template.metadata.creationTimestamp`. -/
def cleanTemplateCreationTimestamp (t : PodTemplate) : PodTemplate :=
  { t with metadata := t.metadata.map (fun md => { md with creationTimestamp := none }) }

/-- Remove container runtime fields (pod-specific cleaning). -/
def cleanContainer (c : ManifestContainer) : ManifestContainer :=
  { c with terminationMessagePath := none, terminationMessagePolicy := none }

/-- `K8SClient.cleanResourceData` on the deep copy: remove metadata runtime
fields, remove `status` entirely, and apply the pod/deployment specific spec
cleaning. -/
def cleanResourceData (r : Manifest) : Manifest :=
  let base : Manifest :=
    { r with metadata := r.metadata.map cleanMetadata, status := none }
  match base.spec with
  | none => base
  | some sp =>
    let sp1 :=
      if r.kind == some "Pod" || r.kind == some "pod" then
        { sp with
          nodeName := none,
          containers := sp.containers.map (fun cs => cs.map cleanContainer),
          template := sp.template.map cleanTemplateCreationTimestamp }
      else sp
    let sp2 :=
      if r.kind == some "Deployment" || r.kind == some "deployment" then
        { sp1 with template := sp1.template.map cleanTemplateCreationTimestamp }
      else sp1
    { base with spec := some sp2 }

/-- The body `createResource` sends: the cleaned copy with the
`managed-by-automation: n8n` label set on `metadata.labels` and, when a
template exists, on `spec.template.metadata.labels`. -/
def createResourceBody (r : Manifest) : Manifest :=
  let cleaned := cleanResourceData r
  let md := cleaned.metadata.getD emptyManifestMetadata
  let md2 := { md with
    labels := some (jsObjectSet (md.labels.getD []) "managed-by-automation" "n8n") }
  let withMeta := { cleaned with metadata := some md2 }
  match withMeta.spec with
  | some sp =>
    match sp.template with
    | some t =>
      let tmd := t.metadata.getD emptyTemplateMetadata
      let tmd2 := { tmd with
        labels := some (jsObjectSet (tmd.labels.getD []) "managed-by-automation" "n8n") }
      { withMeta with spec := some { sp with template := some { t with metadata := some tmd2 } } }
    | none => withMeta
  | none => withMeta

/-- `createResource` as seen from the caller: the cleaner operates on a deep
copy, so the caller's manifest is returned unchanged alongside the body that
is sent to the cluster. -/
def createResourcePrepare (r : Manifest) : Manifest × Manifest :=
  (r, createResourceBody r)

/-! ## Spec-side statefulset predicates (the claim's wording, for refutation) -/

/-- Modelled from the spec: `Ready`/`Available` ⇔ `replicas>0 &&
readyReplicas==replicas`. -/
def statefulSetReadySpec (obj : K8sObject) : Prop :=
  0 < specReplicasOf obj ∧ readyReplicasOf obj = specReplicasOf obj

/-- Modelled from the spec: `Complete` ⇔ additionally
`currentReplicas==updatedReplicas==replicas`. -/
def statefulSetCompleteSpec (obj : K8sObject) : Prop :=
  statefulSetReadySpec obj ∧ currentReplicasOf obj = specReplicasOf obj ∧
    updatedReplicasOf obj = specReplicasOf obj

/-- Modelled from the spec: `Succeeded` ⇔
`readyReplicas==updatedReplicas==replicas` (all equal). -/
def statefulSetSucceededSpec (obj : K8sObject) : Prop :=
  readyReplicasOf obj = updatedReplicasOf obj ∧
    updatedReplicasOf obj = specReplicasOf obj

/-- A StatefulSet object with the given `spec.replicas` and status counters
(and arbitrary `status.conditions` and `status.phase`). -/
def mkStatefulSet (replicas readyR currentR updatedR : Nat)
    (conds : Option (List K8sCondition)) (phase : Option String) : K8sObject :=
  { name := some "db", specReplicas := some replicas,
    status := some { conditions := conds, phase := phase,
                     readyReplicas := some readyR, currentReplicas := some currentR,
                     updatedReplicas := some updatedR, succeeded := none,
                     failed := none } }

/-! ## Concrete objects used by counterexamples and witnesses -/

/-- A Service named `svc` whose `status.conditions` contains
`{type: Ready, status: True}`. -/
def svcReadyObj : K8sObject :=
  { name := some "svc", specReplicas := none,
    status := some { emptyK8sStatus with
      conditions := some [{ type := "Ready", status := "True" }] } }

/-- A StatefulSet scaled to zero: `spec.replicas = 0`,
`readyReplicas = currentReplicas = updatedReplicas = 0`. -/
def statefulSetZero : K8sObject :=
  { name := some "db", specReplicas := some 0,
    status := some { emptyK8sStatus with
      readyReplicas := some 0, currentReplicas := some 0,
      updatedReplicas := some 0 } }

/-- A fully ready two-replica StatefulSet. -/
def statefulSetReady : K8sObject :=
  { name := some "db", specReplicas := some 2,
    status := some { emptyK8sStatus with
      readyReplicas := some 2, currentReplicas := some 2,
      updatedReplicas := some 2 } }

/-- A pod named `p1` whose phase is `Succeeded`. -/
def podSucceededObj : K8sObject :=
  { name := some "p1", specReplicas := none,
    status := some { emptyK8sStatus with phase := some "Succeeded" } }

/-- The spec's merge example: existing envs `[{A,1},{B,2}]`. -/
def exampleExistingEnvs : List EnvVar :=
  [{ name := "A", value := "1" }, { name := "B", value := "2" }]

/-- The spec's merge example: override envs `[{B,9},{C,3}]`. -/
def exampleOverrideEnvs : List EnvVar :=
  [{ name := "B", value := "9" }, { name := "C", value := "3" }]

/-- A cluster in which the `job-name` selector lists successfully but matches
no pods, while the `batch.kubernetes.io/job-name` selector would return one
pod. -/
def batchLabelOnlyCluster (jobName : String) (sel : String) :
    Except JsError (List PodInfo) :=
  if sel == jobNameSelector jobName then .ok []
  else if sel == batchJobNameSelector jobName then .ok [{ name := some "job-pod-1" }]
  else .error { message := "unexpected selector", etype := "Error" }

/-- A StatefulSet with `replicas=1`, `readyReplicas=0`, but current and
updated replicas at 1. -/
def statefulSetUnreadyUpdated : K8sObject :=
  mkStatefulSet 1 0 1 1 none none

/-- The template metadata of the sent body when a template exists: the
original (cleaned) template metadata with the managed label set. -/
def managedTemplateMetadata (t : PodTemplate) : TemplateMetadata :=
  { t.metadata.getD emptyTemplateMetadata with
    labels := some (jsObjectSet
      ((t.metadata.getD emptyTemplateMetadata).labels.getD [])
      "managed-by-automation" "n8n") }

/-- A Deployment manifest carrying runtime fields, a status and a pod
template, as a cluster `get` would return it. -/
def sampleDeploymentManifest : Manifest :=
  { kind := some "Deployment",
    metadata := some { emptyManifestMetadata with
                       name := some "web",
                       labels := some [("app", "web")],
                       creationTimestamp := some "2024-01-01T00:00:00Z",
                       resourceVersion := some "12345",
                       uid := some "abc-123" },
    spec := some { template := some { metadata := none }, nodeName := none,
                   containers := none },
    status := some "Running" }

/-! # Theorems -/

/-! ## Helper lemmas -/

theorem zeroReplicaRule (r : Nat) : (decide (0 < r) && (0 == r)) = false := by
  cases r with
  | zero => simp
  | succ n => simp

theorem genericConditionTrue_status_none (obj : K8sObject) (t : String)
    (h : obj.status = none) : genericConditionTrue obj t = false := by
  simp [genericConditionTrue, statusConditions, h]

theorem genericConditionTrue_status_empty (obj : K8sObject) (t : String)
    (h : obj.status = some emptyK8sStatus) : genericConditionTrue obj t = false := by
  simp [genericConditionTrue, statusConditions, h, emptyK8sStatus]

theorem waitForResourceConditionMet_false_of_leaves (kind condition : String)
    (obj : K8sObject)
    (hg : ∀ t, genericConditionTrue obj t = false)
    (hp : statusPhase obj = none)
    (hr : readyReplicasOf obj = 0)
    (hc : currentReplicasOf obj = 0)
    (hu : updatedReplicasOf obj = 0) :
    waitForResourceConditionMet kind condition obj = false := by
  simp only [waitForResourceConditionMet, hg, hp, hr, hc, hu]
  split
  · rfl
  split
  · rfl
  split
  · rfl
  split
  · rfl
  split
  · rfl
  split
  · rfl
  split
  · split
    · exact zeroReplicaRule _
    split
    · rw [zeroReplicaRule, Bool.false_and]
    split
    · rw [zeroReplicaRule, Bool.false_and]
    · exact zeroReplicaRule _
  · rfl

theorem checkCondition_false_of_leaves (kind condition : String)
    (obj : K8sObject)
    (hg : ∀ t, genericConditionTrue obj t = false)
    (hp : statusPhase obj = none) :
    checkCondition obj condition kind = false := by
  simp only [checkCondition, hg, hp]
  split
  · split <;> rfl
  split
  · split <;> rfl
  split
  · split <;> rfl
  split
  · split
    · rfl
    split <;> rfl
  split
  · split <;> rfl
  · rfl

/-- C2 (amended).  Outside the dedicated pairs and the statefulset kind, the
`waitForResource` ladder returns exactly the generic `status.conditions`
lookup; `checkCondition` falls back to that lookup only for condition names
outside its five switch cases (for those five names on any other kind it
returns `false`); and both evaluators return `false`, never throwing, on a
missing or empty status. -/
theorem spec_C2_fallback_evaluators (kind condition : String) (obj : K8sObject) :
    (dedicatedPair condition (toLowerStr kind) = false →
      toLowerStr kind ≠ "statefulset" →
      waitForResourceConditionMet kind condition obj = genericConditionTrue obj condition)
    ∧ (dedicatedConditionName condition = false →
      checkCondition obj condition kind = genericConditionTrue obj condition)
    ∧ (obj.status = none →
      waitForResourceConditionMet kind condition obj = false ∧
      checkCondition obj condition kind = false)
    ∧ (obj.status = some emptyK8sStatus →
      waitForResourceConditionMet kind condition obj = false ∧
      checkCondition obj condition kind = false) := by
  refine ⟨?_, ?_, ?_, ?_⟩
  · intro hded hsts
    have hsts2 : (toLowerStr kind == "statefulset") = false :=
      beq_eq_false_iff_ne.mpr hsts
    simp only [dedicatedPair, Bool.or_eq_false_iff] at hded
    obtain ⟨⟨⟨⟨⟨h1, h2⟩, h3⟩, h4⟩, h5⟩, h6⟩ := hded
    simp only [waitForResourceConditionMet, h1, h2, h3, h4, h5, h6, hsts2,
      Bool.false_eq_true, if_false]
  · intro hname
    simp only [dedicatedConditionName, Bool.or_eq_false_iff] at hname
    obtain ⟨⟨⟨⟨h1, h2⟩, h3⟩, h4⟩, h5⟩ := hname
    simp only [checkCondition, h1, h2, h3, h4, h5, Bool.false_eq_true, if_false]
  · intro h
    have hg : ∀ t, genericConditionTrue obj t = false :=
      fun t => genericConditionTrue_status_none obj t h
    have hp : statusPhase obj = none := by simp [statusPhase, h]
    have hr : readyReplicasOf obj = 0 := by simp [readyReplicasOf, h]
    have hc : currentReplicasOf obj = 0 := by simp [currentReplicasOf, h]
    have hu : updatedReplicasOf obj = 0 := by simp [updatedReplicasOf, h]
    exact ⟨waitForResourceConditionMet_false_of_leaves kind condition obj hg hp hr hc hu,
      checkCondition_false_of_leaves kind condition obj hg hp⟩
  · intro h
    have hg : ∀ t, genericConditionTrue obj t = false :=
      fun t => genericConditionTrue_status_empty obj t h
    have hp : statusPhase obj = none := by simp [statusPhase, h, emptyK8sStatus]
    have hr : readyReplicasOf obj = 0 := by simp [readyReplicasOf, h, emptyK8sStatus]
    have hc : currentReplicasOf obj = 0 := by simp [currentReplicasOf, h, emptyK8sStatus]
    have hu : updatedReplicasOf obj = 0 := by simp [updatedReplicasOf, h, emptyK8sStatus]
    exact ⟨waitForResourceConditionMet_false_of_leaves kind condition obj hg hp hr hc hu,
      checkCondition_false_of_leaves kind condition obj hg hp⟩

/-- C2, counterexample to the claim as stated: `(service, Ready)` is not
covered by any dedicated rule, the observed object's `status.conditions`
contains `{type: Ready, status: True}`, yet `ResourceManager.checkCondition`
returns `false` instead of the generic lookup's `true` (its `Ready` switch
case falls through to `return false` for non-pod kinds). -/
theorem spec_C2_counterexample :
    checkCondition svcReadyObj "Ready" "service" = false
    ∧ genericConditionTrue svcReadyObj "Ready" = true
    ∧ dedicatedPair "Ready" (toLowerStr "service") = false
    ∧ waitForResourceConditionMet "service" "Ready" svcReadyObj = true := by
  refine ⟨by decide, by decide, by decide, by decide⟩

/-- C2 witness: the amended theorem applied to a Service with a custom
`Synced` condition. -/
theorem spec_C2_witness :
    waitForResourceConditionMet "service" "Synced" svcReadyObj
      = genericConditionTrue svcReadyObj "Synced"
    ∧ checkCondition svcReadyObj "Synced" "service"
      = genericConditionTrue svcReadyObj "Synced" :=
  ⟨(spec_C2_fallback_evaluators "service" "Synced" svcReadyObj).1 (by decide) (by decide),
   (spec_C2_fallback_evaluators "service" "Synced" svcReadyObj).2.1 (by decide)⟩

/-- C3 (amended).  On a StatefulSet the `waitForResource` ladder decides
`Ready`/`Available` as `replicas>0 && readyReplicas==replicas`; `Complete` as
`replicas>0 && currentReplicas==replicas && updatedReplicas==replicas` (the
ready count is NOT consulted); `Succeeded` as `replicas>0 &&
readyReplicas==replicas && updatedReplicas==replicas` (so all-zero counters
do not qualify); and `ResourceManager.checkCondition` has no StatefulSet rule
at all: each of its five dedicated condition names returns `false` for a
StatefulSet. -/
theorem spec_C3_statefulset_rules (replicas readyR currentR updatedR : Nat)
    (conds : Option (List K8sCondition)) (phase : Option String) :
    (waitForResourceConditionMet "statefulset" "Ready"
        (mkStatefulSet replicas readyR currentR updatedR conds phase) = true
      ↔ 0 < replicas ∧ readyR = replicas)
    ∧ (waitForResourceConditionMet "statefulset" "Available"
        (mkStatefulSet replicas readyR currentR updatedR conds phase) = true
      ↔ 0 < replicas ∧ readyR = replicas)
    ∧ (waitForResourceConditionMet "statefulset" "Complete"
        (mkStatefulSet replicas readyR currentR updatedR conds phase) = true
      ↔ 0 < replicas ∧ currentR = replicas ∧ updatedR = replicas)
    ∧ (waitForResourceConditionMet "statefulset" "Succeeded"
        (mkStatefulSet replicas readyR currentR updatedR conds phase) = true
      ↔ 0 < replicas ∧ readyR = replicas ∧ updatedR = replicas)
    ∧ (∀ c, dedicatedConditionName c = true →
        checkCondition (mkStatefulSet replicas readyR currentR updatedR conds phase)
          c "statefulset" = false) := by
  refine ⟨?_, ?_, ?_, ?_, ?_⟩
  · have h : waitForResourceConditionMet "statefulset" "Ready"
        (mkStatefulSet replicas readyR currentR updatedR conds phase)
        = (decide (0 < replicas) && (readyR == replicas)) := rfl
    rw [h]
    simp
  · have h : waitForResourceConditionMet "statefulset" "Available"
        (mkStatefulSet replicas readyR currentR updatedR conds phase)
        = (decide (0 < replicas) && (readyR == replicas)) := rfl
    rw [h]
    simp
  · have h : waitForResourceConditionMet "statefulset" "Complete"
        (mkStatefulSet replicas readyR currentR updatedR conds phase)
        = (decide (0 < replicas) && (currentR == replicas) && (updatedR == replicas)) := rfl
    rw [h]
    simp [and_assoc]
  · have h : waitForResourceConditionMet "statefulset" "Succeeded"
        (mkStatefulSet replicas readyR currentR updatedR conds phase)
        = (decide (0 < replicas) && (readyR == replicas) && (updatedR == replicas)) := rfl
    rw [h]
    simp [and_assoc]
  · intro c hc
    simp only [dedicatedConditionName, Bool.or_eq_true, beq_iff_eq] at hc
    rcases hc with ((((rfl | rfl) | rfl) | rfl) | rfl) <;> rfl

/-- C3, counterexample to the claim as stated.  At a StatefulSet scaled to
zero, `readyReplicas`, `updatedReplicas` and `replicas` are all equal, so the
claim requires `Succeeded` to hold, but the code returns `false` (it also
demands `replicas > 0`).  And with `replicas=1`, `readyReplicas=0`,
`currentReplicas=updatedReplicas=1`, the code reports `Complete` although the
claim's `Complete` additionally requires readiness. -/
theorem spec_C3_counterexample :
    (waitForResourceConditionMet "statefulset" "Succeeded" statefulSetZero = false
      ∧ statefulSetSucceededSpec statefulSetZero)
    ∧ (waitForResourceConditionMet "statefulset" "Complete" statefulSetUnreadyUpdated = true
      ∧ ¬ statefulSetCompleteSpec statefulSetUnreadyUpdated) := by
  refine ⟨⟨by decide, ⟨rfl, rfl⟩⟩, ⟨by decide, ?_⟩⟩
  intro h
  have h2 : (0 : Nat) = 1 := h.1.2
  exact absurd h2 (by decide)

/-- C3 witness: the amended theorem applied to a ready two-replica
StatefulSet. -/
theorem spec_C3_witness :
    (waitForResourceConditionMet "statefulset" "Ready" (mkStatefulSet 2 2 2 2 none none) = true
      ↔ 0 < 2 ∧ 2 = 2)
    ∧ checkCondition (mkStatefulSet 2 2 2 2 none none) "Ready" "statefulset" = false :=
  ⟨(spec_C3_statefulset_rules 2 2 2 2 none none).1,
   (spec_C3_statefulset_rules 2 2 2 2 none none).2.2.2.2 "Ready" (by decide)⟩

/-- Each event dispatch calls `resolve`/`reject` at most once. -/
theorem watchStepCore_emission_shape (condMet : K8sObject → Bool)
    (kind name condition : String) (s : WatchMachineState) (e : WatchEvent) :
    (watchStepCore condMet kind name condition s e).2 = []
    ∨ ∃ o, (watchStepCore condMet kind name condition s e).2 = [o] := by
  cases e <;> simp only [watchStepCore] <;> (repeat' split) <;>
    first
    | exact Or.inl rfl
    | exact Or.inr ⟨_, rfl⟩

/-- Once the latch is set, the latched machine emits nothing further. -/
theorem watchRun_settled (condMet : K8sObject → Bool) (kind name condition : String) :
    ∀ (events : List WatchEvent) (s : WatchMachineState), s.settled = true →
      watchRun true condMet kind name condition s events = [] := by
  intro events
  induction events with
  | nil => intro s _; rfl
  | cons e es ih =>
    intro s h
    simp only [watchRun, watchStep, h, Bool.true_and, Bool.true_or, if_true]
    rw [List.nil_append]
    exact ih _ (by simp)

/-- The latched machine's emissions are the first emission of the unlatched
machine: the one-shot latch implements first-settlement-wins. -/
theorem watchRun_latched_take_one (condMet : K8sObject → Bool)
    (kind name condition : String) :
    ∀ (events : List WatchEvent) (s : WatchMachineState), s.settled = false →
      watchRun true condMet kind name condition s events
        = (watchRun false condMet kind name condition s events).take 1 := by
  intro events
  induction events with
  | nil => intro s _; rfl
  | cons e es ih =>
    intro s h
    rcases watchStepCore_emission_shape condMet kind name condition s e with h0 | ⟨o, h1⟩
    · simp only [watchRun, watchStep, h, h0, Bool.false_and, if_false,
        List.isEmpty_nil, Bool.not_true, Bool.or_false, List.nil_append]
      exact ih _ (by simp [h, h0])
    · simp only [watchRun, watchStep, h, h1, Bool.false_and, if_false]
      rw [watchRun_settled condMet kind name condition es _ (by simp [h, h1])]
      simp

/-- C1 (amended).  The latch of `waitForResourceCondition` makes its
emissions exactly the first emission of the corresponding unlatched machine,
so it produces at most one terminal outcome per call — exactly one as soon as
any terminal trigger occurs.  `waitForResource` itself has no latch: its
exactly-once behaviour holds only at the promise-settlement level (the first
`resolve`/`reject` call wins), not at the callback level. -/
theorem spec_C1_exactly_once :
    (∀ (condMet : K8sObject → Bool) (kind name condition : String)
        (events : List WatchEvent),
      watchEmissions true condMet kind name condition events
        = (watchEmissions false condMet kind name condition events).take 1
      ∧ (watchEmissions true condMet kind name condition events).length ≤ 1)
    ∧ (∀ (apiKind name condition : String) (events : List WatchEvent),
      waitForResourceConditionEmissions apiKind name condition events
        = (watchEmissions false (fun obj => checkCondition obj condition apiKind)
            apiKind name condition events).take 1
      ∧ promiseSettlement (waitForResourceEmissions apiKind name condition events)
        = (waitForResourceEmissions apiKind name condition events).head?) := by
  constructor
  · intro condMet kind name condition events
    have h := watchRun_latched_take_one condMet kind name condition events
      initWatchState rfl
    refine ⟨h, ?_⟩
    rw [watchEmissions, h, List.length_take]
    exact min_le_left _ _
  · intro apiKind name condition events
    exact ⟨watchRun_latched_take_one _ apiKind name condition events initWatchState rfl,
      rfl⟩

/-- C1, counterexample to the claim as stated: two duplicate matching
condition-met events make the unlatched `waitForResource` call `resolve`
twice — two terminal outcomes are produced by the callbacks, so the
exactly-once guarantee is not latch-guarded there.  The latched
`waitForResourceCondition` emits exactly one outcome on the same trace. -/
theorem spec_C1_counterexample :
    waitForResourceEmissions "pod" "p1" "Succeeded"
        [.update podSucceededObj, .update podSucceededObj]
      = [.met podSucceededObj, .met podSucceededObj]
    ∧ (waitForResourceEmissions "pod" "p1" "Succeeded"
        [.update podSucceededObj, .update podSucceededObj]).length = 2
    ∧ waitForResourceConditionEmissions "pod" "p1" "Succeeded"
        [.update podSucceededObj, .update podSucceededObj]
      = [.met podSucceededObj] := by
  refine ⟨by decide, by decide, by decide⟩

/-- Case analysis of one event dispatch: it emits nothing, a `met`, the
`timedOut` of this request, or an `errored`; only `met` can change the
completion flag, and only to `true`. -/
theorem watchStepCore_cases (condMet : K8sObject → Bool)
    (kind name condition : String) (s : WatchMachineState) (e : WatchEvent) :
    ((watchStepCore condMet kind name condition s e).2 = []
      ∧ (watchStepCore condMet kind name condition s e).1.resourceCompleted
        = s.resourceCompleted)
    ∨ (∃ obj, (watchStepCore condMet kind name condition s e).2 = [.met obj]
      ∧ (watchStepCore condMet kind name condition s e).1.resourceCompleted = true)
    ∨ ((watchStepCore condMet kind name condition s e).2
        = [.timedOut kind name condition]
      ∧ s.resourceCompleted = false
      ∧ (watchStepCore condMet kind name condition s e).1.resourceCompleted
        = s.resourceCompleted)
    ∨ (∃ err, (watchStepCore condMet kind name condition s e).2 = [.errored err]
      ∧ (watchStepCore condMet kind name condition s e).1.resourceCompleted
        = s.resourceCompleted) := by
  cases e <;> simp only [watchStepCore] <;> (repeat' split) <;> simp_all

/-- From a completed state no run ever emits a timeout. -/
theorem watchRun_completed_no_timeout (latched : Bool) (condMet : K8sObject → Bool)
    (kind name condition : String) :
    ∀ (events : List WatchEvent) (s : WatchMachineState),
      s.resourceCompleted = true →
      ((watchRun latched condMet kind name condition s events).any
        isTimedOutOutcome) = false := by
  intro events
  induction events with
  | nil => intro s _; rfl
  | cons e es ih =>
    intro s h
    rcases watchStepCore_cases condMet kind name condition s e with
      ⟨h0, hs⟩ | ⟨obj, h0, hs⟩ | ⟨h0, hc, hs⟩ | ⟨err, h0, hs⟩
    · simp only [watchRun, watchStep, h0, List.any_append, ite_self, List.any_nil]
      rw [ih _ (by rw [hs]; exact h)]
      simp
    · simp only [watchRun, watchStep, h0, List.any_append]
      rw [ih _ (by rw [hs])]
      cases hl : (latched && s.settled) <;> simp [isTimedOutOutcome]
    · rw [hc] at h
      exact absurd h (by simp)
    · simp only [watchRun, watchStep, h0, List.any_append]
      rw [ih _ (by rw [hs]; exact h)]
      cases hl : (latched && s.settled) <;> simp [isTimedOutOutcome]

/-- A list with no timeout outcome trivially has none after a `met`. -/
theorem noTimedOutAfterMet_of_no_timeout :
    ∀ l : List WatchOutcome, l.any isTimedOutOutcome = false →
      noTimedOutAfterMet l = true := by
  intro l
  induction l with
  | nil => intro _; rfl
  | cons o rest ih =>
    intro h
    rw [List.any_cons, Bool.or_eq_false_iff] at h
    simp only [noTimedOutAfterMet, h.2, Bool.not_false, Bool.or_true, Bool.true_and]
    exact ih h.2

theorem watchRun_cons (latched : Bool) (condMet : K8sObject → Bool)
    (kind name condition : String) (s : WatchMachineState) (e : WatchEvent)
    (es : List WatchEvent) :
    watchRun latched condMet kind name condition s (e :: es)
      = (watchStep latched condMet kind name condition s e).2
        ++ watchRun latched condMet kind name condition
            (watchStep latched condMet kind name condition s e).1 es := rfl

theorem watchStep_fst_completed (latched : Bool) (condMet : K8sObject → Bool)
    (kind name condition : String) (s : WatchMachineState) (e : WatchEvent) :
    (watchStep latched condMet kind name condition s e).1.resourceCompleted
      = (watchStepCore condMet kind name condition s e).1.resourceCompleted := rfl

theorem watchStep_snd_kept (latched : Bool) (condMet : K8sObject → Bool)
    (kind name condition : String) (s : WatchMachineState) (e : WatchEvent)
    (hl : (latched && s.settled) = false) :
    (watchStep latched condMet kind name condition s e).2
      = (watchStepCore condMet kind name condition s e).2 := by
  simp [watchStep, hl]

theorem watchStep_snd_dropped (latched : Bool) (condMet : K8sObject → Bool)
    (kind name condition : String) (s : WatchMachineState) (e : WatchEvent)
    (hl : (latched && s.settled) = true) :
    (watchStep latched condMet kind name condition s e).2 = [] := by
  simp [watchStep, hl]

/-- In every run, no timeout outcome is ever emitted after a `met` outcome. -/
theorem watchRun_noTimedOutAfterMet (latched : Bool) (condMet : K8sObject → Bool)
    (kind name condition : String) :
    ∀ (events : List WatchEvent) (s : WatchMachineState),
      noTimedOutAfterMet (watchRun latched condMet kind name condition s events)
        = true := by
  intro events
  induction events with
  | nil => intro s; rfl
  | cons e es ih =>
    intro s
    rw [watchRun_cons]
    cases hl : (latched && s.settled)
    case true =>
      rw [watchStep_snd_dropped latched condMet kind name condition s e hl,
        List.nil_append]
      exact ih _
    case false =>
      rw [watchStep_snd_kept latched condMet kind name condition s e hl]
      rcases watchStepCore_cases condMet kind name condition s e with
        ⟨h0, hs⟩ | ⟨obj, h0, hs⟩ | ⟨h0, hc, hs⟩ | ⟨err, h0, hs⟩
      · rw [h0, List.nil_append]
        exact ih _
      · rw [h0, List.singleton_append]
        have hcomp : (watchStep latched condMet kind name condition s e).1.resourceCompleted
            = true := by
          rw [watchStep_fst_completed]
          exact hs
        have hrest := watchRun_completed_no_timeout latched condMet kind name condition
          es _ hcomp
        simp only [noTimedOutAfterMet, isMetOutcome, hrest, Bool.not_false,
          Bool.or_true, Bool.true_and]
        exact noTimedOutAfterMet_of_no_timeout _ hrest
      · rw [h0, List.singleton_append]
        simp only [noTimedOutAfterMet, isMetOutcome, Bool.not_false, Bool.false_or,
          Bool.true_and]
        exact ih _
      · rw [h0, List.singleton_append]
        simp only [noTimedOutAfterMet, isMetOutcome, Bool.not_false, Bool.false_or,
          Bool.true_and]
        exact ih _

/-- C4.  The default wait deadline is 300 seconds (300000 ms); when the timer
fires live and the wait is not completed, the deadline callback rejects with
the timeout outcome carrying the request's kind, name and condition; the
deadline callback does nothing once `resourceCompleted` is set; resolving
`met` sets the completion flag and cancels the timer in the same step; and on
no event trace, latched or not, is a timeout outcome ever produced after a
`met` outcome. -/
theorem spec_C4_timeout (condMet : K8sObject → Bool) (kind name condition : String) :
    waitForResourceDefaultTimeoutMs = 300 * 1000
    ∧ (∀ s : WatchMachineState, s.timerCleared = false → s.timerFired = false →
        s.resourceCompleted = false →
        watchStepCore condMet kind name condition s .timerFire
          = ({ s with timerFired := true }, [.timedOut kind name condition]))
    ∧ (∀ s : WatchMachineState, s.resourceCompleted = true →
        (watchStepCore condMet kind name condition s .timerFire).2 = [])
    ∧ (∀ (s : WatchMachineState) (obj : K8sObject),
        (obj.name == some name) = true → condMet obj = true →
        watchStepCore condMet kind name condition s (.update obj)
          = ({ s with resourceCompleted := true, timerCleared := true }, [.met obj]))
    ∧ (∀ (latched : Bool) (events : List WatchEvent),
        noTimedOutAfterMet (watchEmissions latched condMet kind name condition events)
          = true) := by
  refine ⟨rfl, ?_, ?_, ?_, ?_⟩
  · intro s h1 h2 h3
    simp [watchStepCore, h1, h2, h3]
  · intro s h
    simp only [watchStepCore, h, eq_self_iff_true, if_true]
    split <;> rfl
  · intro s obj h1 h2
    simp [watchStepCore, h1, h2]
  · intro latched events
    exact watchRun_noTimedOutAfterMet latched condMet kind name condition events
      initWatchState

/-- C4 witness: the theorem applied to the `Job`/`Complete` wait of the job
pipeline on a fresh state and on a trace that times out after a non-matching
update. -/
theorem spec_C4_timeout_witness :
    watchStepCore (waitForResourceConditionMet "job" "Complete") "job" "j1" "Complete"
        initWatchState .timerFire
      = ({ initWatchState with timerFired := true }, [.timedOut "job" "j1" "Complete"])
    ∧ noTimedOutAfterMet (watchEmissions false
        (waitForResourceConditionMet "job" "Complete") "job" "j1" "Complete"
        [.update svcReadyObj, .timerFire]) = true :=
  ⟨(spec_C4_timeout (waitForResourceConditionMet "job" "Complete")
      "job" "j1" "Complete").2.1 initWatchState rfl rfl rfl,
   (spec_C4_timeout (waitForResourceConditionMet "job" "Complete")
      "job" "j1" "Complete").2.2.2.2 false [.update svcReadyObj, .timerFire]⟩

/-- C5, the failing input.  When the `job-name=<jobName>` listing SUCCEEDS
with zero pods — the normal cluster behaviour for an unmatched selector —
`getJobPodLogs` returns the "no pods found" outcome immediately: the
`batch.kubernetes.io/job-name` fallback is attached to the `catch` of the
first listing, so it runs only when that listing throws, never on an empty
result.  Here the second selector would have found a pod. -/
theorem spec_C5_no_fallback_on_empty :
    getJobPodLogs "my-job" (batchLabelOnlyCluster "my-job")
        (fun podName => "logs of " ++ podName)
      = (.ok "No pods found for job my-job", [jobNameSelector "my-job"])
    ∧ batchLabelOnlyCluster "my-job" (batchJobNameSelector "my-job")
      = .ok [{ name := some "job-pod-1" }]
    ∧ batchJobNameSelector "my-job" ∉
        (getJobPodLogs "my-job" (batchLabelOnlyCluster "my-job")
          (fun podName => "logs of " ++ podName)).2 := by
  refine ⟨rfl, rfl, ?_⟩
  intro h
  simp only [getJobPodLogs, batchLabelOnlyCluster] at h
  revert h
  decide

/-- C6 (amended).  Every validation failure (blank or malformed name, name too
long) aborts before the job-creation cluster call: in `runJobAndGetOutput`
before any cluster call at all, but in `triggerCronJob` only after the
CronJob has already been read from the cluster, because the read precedes the
name derivation and its validation.  `"MyJob"` is rejected (before any
cluster call), `"my-job"` is accepted. -/
theorem spec_C6_name_validation :
    (∀ (jobName image suffix : String) (createOk : Bool) (e : JobRunError),
      (runJobCreatePhase jobName image suffix createOk).1 = .error e →
      isValidationError e = true →
      (runJobCreatePhase jobName image suffix createOk).2 = [])
    ∧ (∀ (cronJobName : String) (timestamp : Nat) (readResult : Option CronJobRead)
        (createOk : Bool) (e : JobRunError),
      (triggerCronJobCreatePhase cronJobName timestamp readResult createOk).1
        = .error e →
      isValidationError e = true →
      (triggerCronJobCreatePhase cronJobName timestamp readResult createOk).2
        = [.readCronJob cronJobName])
    ∧ dns1123Matches "MyJob" = false
    ∧ dns1123Matches "my-job" = true
    ∧ runJobCreatePhase "MyJob" "alpine" "abc123" true
      = (.error (.invalidName "MyJob"), [])
    ∧ (runJobCreatePhase "my-job" "alpine" "abc123" true).1 = .ok "my-job-abc123" := by
  refine ⟨?_, ?_, by decide, by decide, rfl, rfl⟩
  · intro jobName image suffix createOk e h1 h2
    simp only [runJobCreatePhase] at h1 ⊢
    repeat' split at h1
    all_goals dsimp only at h1
    all_goals (injection h1; all_goals subst_vars)
    all_goals simp_all [isValidationError]
  · intro cronJobName timestamp readResult createOk e h1 h2
    simp only [triggerCronJobCreatePhase] at h1 ⊢
    repeat' split at h1
    all_goals dsimp only at h1
    all_goals (injection h1; all_goals subst_vars)
    all_goals simp_all [isValidationError]

/-- C6, counterexample to the claim as stated.  Triggering the CronJob named
by sixty `a`s (a valid cluster name) derives a 71-character job name, which
is rejected as too long — but only after `readNamespacedCronJob`, a cluster
call, has already been made, so the validation error is not thrown "before
any cluster call". -/
theorem spec_C6_counterexample :
    triggerCronJobCreatePhase
        "aaaaaaaaaaaaaaaaaaaaaaaaaaaaaaaaaaaaaaaaaaaaaaaaaaaaaaaaaaaa"
        1700000000 (some { hasJobTemplateSpec := true }) true
      = (.error (.nameTooLong
          "aaaaaaaaaaaaaaaaaaaaaaaaaaaaaaaaaaaaaaaaaaaaaaaaaaaaaaaaaaaa-1700000000"),
         [.readCronJob "aaaaaaaaaaaaaaaaaaaaaaaaaaaaaaaaaaaaaaaaaaaaaaaaaaaaaaaaaaaa"])
    ∧ isValidationError (.nameTooLong
        "aaaaaaaaaaaaaaaaaaaaaaaaaaaaaaaaaaaaaaaaaaaaaaaaaaaaaaaaaaaa-1700000000")
      = true
    ∧ ([ClusterCall.readCronJob
        "aaaaaaaaaaaaaaaaaaaaaaaaaaaaaaaaaaaaaaaaaaaaaaaaaaaaaaaaaaaa"]
        ≠ ([] : List ClusterCall)) := by
  refine ⟨rfl, rfl, by decide⟩

/-- C6 witness: the amended theorem applied to the rejected name `MyJob`
(no cluster call) and to a too-long CronJob trigger (only the read call). -/
theorem spec_C6_witness :
    (runJobCreatePhase "MyJob" "alpine" "abc123" true).2 = []
    ∧ (triggerCronJobCreatePhase
        "aaaaaaaaaaaaaaaaaaaaaaaaaaaaaaaaaaaaaaaaaaaaaaaaaaaaaaaaaaaa"
        1700000000 (some { hasJobTemplateSpec := true }) true).2
      = [.readCronJob "aaaaaaaaaaaaaaaaaaaaaaaaaaaaaaaaaaaaaaaaaaaaaaaaaaaaaaaaaaaa"] :=
  ⟨spec_C6_name_validation.1 "MyJob" "alpine" "abc123" true (.invalidName "MyJob")
      rfl rfl,
   spec_C6_name_validation.2.1
      "aaaaaaaaaaaaaaaaaaaaaaaaaaaaaaaaaaaaaaaaaaaaaaaaaaaaaaaaaaaa"
      1700000000 (some { hasJobTemplateSpec := true }) true
      (.nameTooLong
        "aaaaaaaaaaaaaaaaaaaaaaaaaaaaaaaaaaaaaaaaaaaaaaaaaaaaaaaaaaaa-1700000000")
      rfl rfl⟩

/-! ## Lemmas about the env merge (C7) -/

theorem jsIndexOf_eq_none_not_mem : ∀ (l : List String) (s : String),
    jsIndexOf l s = none → s ∉ l := by
  intro l
  induction l with
  | nil => intro s _ h; exact absurd h (List.not_mem_nil s)
  | cons x xs ih =>
    intro s h hmem
    simp only [jsIndexOf] at h
    by_cases hx : (x == s) = true
    · rw [if_pos hx] at h
      exact Option.noConfusion h
    · rw [if_neg hx] at h
      rcases List.mem_cons.mp hmem with rfl | hmem2
      · exact hx (by simp)
      · exact ih s (by cases hj : jsIndexOf xs s with
          | none => rfl
          | some i => rw [hj] at h; exact Option.noConfusion h) hmem2

theorem jsIndexOf_eq_some_get : ∀ (l : List String) (s : String) (i : Nat),
    jsIndexOf l s = some i → l.get? i = some s := by
  intro l
  induction l with
  | nil => intro s i h; exact Option.noConfusion h
  | cons x xs ih =>
    intro s i h
    simp only [jsIndexOf] at h
    by_cases hx : (x == s) = true
    · rw [if_pos hx] at h
      cases h
      simp only [List.get?]
      rw [beq_iff_eq] at hx
      rw [hx]
    · rw [if_neg hx] at h
      cases hj : jsIndexOf xs s with
      | none => rw [hj] at h; exact Option.noConfusion h
      | some i0 =>
        rw [hj] at h
        cases h
        simp only [List.get?]
        exact ih s i0 hj

theorem map_noop {α : Type} (f : α → α) : ∀ (l : List α),
    (∀ x ∈ l, f x = x) → l.map f = l := by
  intro l
  induction l with
  | nil => intro _; rfl
  | cons x xs ih =>
    intro h
    simp only [List.map]
    rw [h x (List.mem_cons_self x xs), ih (fun y hy => h y (List.mem_cons_of_mem x hy))]

theorem envAny_eq_mem_names (l : List EnvVar) (s : String) :
    (l.any (fun x => x.name == s)) = true ↔ s ∈ l.map EnvVar.name := by
  rw [List.any_eq_true]
  constructor
  · rintro ⟨x, hx, hb⟩
    rw [beq_iff_eq] at hb
    exact hb ▸ List.mem_map_of_mem EnvVar.name hx
  · intro h
    rcases List.mem_map.mp h with ⟨x, hx, hb⟩
    exact ⟨x, hx, by rw [hb]; exact beq_self_eq_true s⟩

/-- Replacing every entry whose name matches, in a list whose names are
distinct and whose `i`-th name is the matched one, is the same as overwriting
position `i`. -/
theorem replaceByName_eq_set : ∀ (l : List EnvVar) (i : Nat) (e : EnvVar),
    (l.map EnvVar.name).Nodup →
    (l.map EnvVar.name).get? i = some e.name →
    l.map (fun x => if x.name == e.name then e else x) = l.set i e := by
  intro l
  induction l with
  | nil => intro i e _ h; exact Option.noConfusion h
  | cons x xs ih =>
    intro i e hnd h
    rw [List.map_cons, List.nodup_cons] at hnd
    cases i with
    | zero =>
      simp only [List.map_cons, List.get?] at h ⊢
      have hx : x.name = e.name := Option.some.inj h
      rw [List.set_cons_zero, if_pos (by rw [hx]; exact beq_self_eq_true e.name)]
      congr 1
      apply map_noop
      intro y hy
      rw [if_neg (by
        intro hyb
        rw [beq_iff_eq] at hyb
        exact hnd.1 (by
          rw [hx, ← hyb]
          exact List.mem_map_of_mem EnvVar.name hy))]
    | succ j =>
      simp only [List.map_cons, List.get?] at h
      have hxname : (x.name == e.name) = false := by
        rw [beq_eq_false_iff_ne]
        intro hx
        have hmem : e.name ∈ xs.map EnvVar.name := List.get?_mem h
        exact hnd.1 (hx ▸ hmem)
      simp only [List.map_cons, List.set_cons_succ, hxname, Bool.false_eq_true,
        if_false]
      rw [ih j e hnd.2 h]

/-- Overwriting position `i` with an entry whose name already sits at `i`
leaves the name list unchanged. -/
theorem set_preserves_names : ∀ (l : List EnvVar) (i : Nat) (e : EnvVar),
    (l.map EnvVar.name).get? i = some e.name →
    (l.set i e).map EnvVar.name = l.map EnvVar.name := by
  intro l
  induction l with
  | nil => intro i e h; exact Option.noConfusion h
  | cons x xs ih =>
    intro i e h
    cases i with
    | zero =>
      simp only [List.map_cons, List.get?] at h
      rw [List.set_cons_zero, List.map_cons, List.map_cons, Option.some.inj h]
    | succ j =>
      simp only [List.map_cons, List.get?] at h
      rw [List.set_cons_succ, List.map_cons, List.map_cons, ih j e h]

/-- The snapshot-indexed merge of `triggerCronJob` agrees with the
update-or-append merge of the spec, as long as the original names are
distinct, the override names are distinct, and no override name is among the
`extra` names already appended. -/
theorem merge_go_eq (names : List String) :
    ∀ (ovs : List EnvVar) (acc : List EnvVar) (extra : List String),
      acc.map EnvVar.name = names ++ extra →
      (names ++ extra).Nodup →
      (ovs.map EnvVar.name).Nodup →
      (∀ e ∈ ovs, e.name ∉ extra) →
      ovs.foldl (fun acc e =>
          match jsIndexOf names e.name with
          | some i => acc.set i e
          | none => acc ++ [e]) acc
        = ovs.foldl (fun acc e =>
          if acc.any (fun x => x.name == e.name) then
            acc.map (fun x => if x.name == e.name then e else x)
          else acc ++ [e]) acc := by
  intro ovs
  induction ovs with
  | nil => intro acc extra _ _ _ _; rfl
  | cons e rest ih =>
    intro acc extra hacc hnd hov hextra
    rw [List.map_cons, List.nodup_cons] at hov
    simp only [List.foldl_cons]
    cases hj : jsIndexOf names e.name with
    | some i =>
      have hget : names.get? i = some e.name := jsIndexOf_eq_some_get names e.name i hj
      have hlt : i < names.length := by
        rcases List.get?_eq_some.mp hget with ⟨hl, _⟩
        exact hl
      have hgetacc : (acc.map EnvVar.name).get? i = some e.name := by
        rw [hacc, List.get?_append hlt]
        exact hget
      have hmem : e.name ∈ acc.map EnvVar.name := List.get?_mem hgetacc
      have hany : (acc.any (fun x => x.name == e.name)) = true :=
        (envAny_eq_mem_names acc e.name).mpr hmem
      have hnda : (acc.map EnvVar.name).Nodup := hacc ▸ hnd
      rw [if_pos hany, replaceByName_eq_set acc i e hnda hgetacc]
      exact ih (acc.set i e) extra
        (by rw [set_preserves_names acc i e hgetacc]; exact hacc)
        hnd hov.2 (fun e2 he2 => hextra e2 (List.mem_cons_of_mem e he2))
    | none =>
      have hnotnames : e.name ∉ names := jsIndexOf_eq_none_not_mem names e.name hj
      have hnotextra : e.name ∉ extra := hextra e (List.mem_cons_self e rest)
      have hnotmem : e.name ∉ acc.map EnvVar.name := by
        rw [hacc]
        intro hmem
        rcases List.mem_append.mp hmem with h1 | h2
        · exact hnotnames h1
        · exact hnotextra h2
      have hany : (acc.any (fun x => x.name == e.name)) = false := by
        cases ha : acc.any (fun x => x.name == e.name) with
        | false => rfl
        | true => exact absurd ((envAny_eq_mem_names acc e.name).mp ha) hnotmem
      simp only [hany, Bool.false_eq_true, if_false]
      refine ih (acc ++ [e]) (extra ++ [e.name]) ?_ ?_ hov.2 ?_
      · rw [List.map_append, hacc, List.append_assoc]
        rfl
      · rw [← List.append_assoc, List.nodup_append]
        refine ⟨hnd, List.nodup_singleton e.name, ?_⟩
        intro a ha hb
        have hae : a = e.name := List.mem_singleton.mp hb
        subst hae
        rcases List.mem_append.mp ha with h1 | h2
        · exact hnotnames h1
        · exact hnotextra h2
      · intro e2 he2 hmem
        rcases List.mem_append.mp hmem with h1 | h2
        · exact hextra e2 (List.mem_cons_of_mem e he2) h1
        · exact hov.1 ((List.mem_singleton.mp h2) ▸ List.mem_map_of_mem EnvVar.name he2)

/-- C7 (amended).  For override lists whose entries all have non-empty names
and pairwise distinct names, applied to containers whose env names are
distinct (the Kubernetes invariant), the merge of `triggerCronJob` is exactly
the order-preserving update-or-append merge the spec describes, and the
spec's concrete example holds; the override set is applied to every container
of the cloned template.  (Entries with empty names are silently dropped, and
name matching uses a snapshot of the original env-name list, which is why the
distinctness assumptions are needed.) -/
theorem spec_C7_override_merge :
    (∀ (existing overrides : List EnvVar),
      (existing.map EnvVar.name).Nodup →
      (overrides.map EnvVar.name).Nodup →
      (∀ e ∈ overrides, e.name ≠ "") →
      mergeEnvVars existing overrides = updateOrAppendSpec existing overrides)
    ∧ mergeEnvVars exampleExistingEnvs exampleOverrideEnvs
      = [{ name := "A", value := "1" }, { name := "B", value := "9" },
         { name := "C", value := "3" }]
    ∧ (∀ (ov : JobOverrides) (containers : List Container) (i : Nat),
      (applyOverrides ov containers).get? i
        = (containers.get? i).map (applyOverridesToContainer ov)) := by
  refine ⟨?_, by decide, ?_⟩
  · intro existing overrides h1 h2 h3
    have hfilter : overrides.filter (fun e => e.name != "") = overrides := by
      rw [List.filter_eq_self]
      intro e he
      simpa using h3 e he
    simp only [mergeEnvVars, updateOrAppendSpec, hfilter]
    exact merge_go_eq (existing.map EnvVar.name) overrides existing []
      (by simp) (by simpa using h1) h2 (by simp)
  · intro ov containers i
    simp only [applyOverrides, List.get?_map]

/-- C7, counterexample to the claim as stated: an override entry with an
empty name never matches an existing entry, so the claim requires it to be
appended, but the code's filter (`env.name && ...`) drops it entirely. -/
theorem spec_C7_counterexample :
    mergeEnvVars [] [{ name := "", value := "x" }] = []
    ∧ updateOrAppendSpec [] [{ name := "", value := "x" }]
      = [{ name := "", value := "x" }] := ⟨rfl, rfl⟩

/-- C7 witness: the amended theorem applied to the spec's example lists. -/
theorem spec_C7_witness :
    mergeEnvVars exampleExistingEnvs exampleOverrideEnvs
      = updateOrAppendSpec exampleExistingEnvs exampleOverrideEnvs :=
  spec_C7_override_merge.1 exampleExistingEnvs exampleOverrideEnvs
    (by decide) (by decide) (by decide)

/-- C8.  Whenever `runPodAndGetOutput` returns (its inner promise settled —
resolved, errored, or aborted), the `finally` block has attempted exactly one
pod deletion, and the returned value or thrown error is unchanged by the
outcome of that deletion; an aborted settlement is converted to the empty
result. -/
theorem spec_C8_pod_delete (podName : String) (logsResult : Except JsError String)
    (events : List PodWatchEvent) (d d2 : Except JsError Unit)
    (h : (runPodAndGetOutput podName logsResult events d).1.isSome = true) :
    (runPodAndGetOutput podName logsResult events d).2 = 1
    ∧ (runPodAndGetOutput podName logsResult events d).1
      = (runPodAndGetOutput podName logsResult events d2).1
    ∧ (∀ e, isAbortedError e = true →
        runPodWatchSettlement podName logsResult events = some (.error e) →
        (runPodAndGetOutput podName logsResult events d).1 = some (.ok "")) := by
  cases hs : runPodWatchSettlement podName logsResult events with
  | none => rw [runPodAndGetOutput, hs] at h; exact absurd h (by simp)
  | some r =>
    refine ⟨by simp [runPodAndGetOutput, hs], ?_, ?_⟩
    · cases d <;> cases d2 <;> simp [runPodAndGetOutput, hs]
    · intro e he hset
      cases hset
      cases d <;> simp [runPodAndGetOutput, hs, he]

/-- C8 witness: a pod run whose watch sees the terminal phase; the delete
call fails but the returned logs are identical to the successful-delete
run. -/
theorem spec_C8_witness :
    (runPodAndGetOutput "p1" (.ok "done") [.update podSucceededObj]
      (.error { message := "delete failed", etype := "Error" })).2 = 1
    ∧ (runPodAndGetOutput "p1" (.ok "done") [.update podSucceededObj]
      (.error { message := "delete failed", etype := "Error" })).1
      = (runPodAndGetOutput "p1" (.ok "done") [.update podSucceededObj] (.ok ())).1 :=
  ⟨(spec_C8_pod_delete "p1" (.ok "done") [.update podSucceededObj]
      (.error { message := "delete failed", etype := "Error" }) (.ok ())
      (by decide)).1,
   (spec_C8_pod_delete "p1" (.ok "done") [.update podSucceededObj]
      (.error { message := "delete failed", etype := "Error" }) (.ok ())
      (by decide)).2.1⟩


/-! ## Lemmas about formatOutput and the JSON parser (C9) -/

/-- A JavaScript-whitespace character can never start a JSON value. -/
theorem parseJsonValue_ws_none (c : Char) (h : jsWhitespace c = true) :
    ∀ (fuel : Nat) (cs : List Char), parseJsonValue fuel (c :: cs) = none := by
  simp only [jsWhitespace, Bool.or_eq_true, beq_iff_eq] at h
  intro fuel cs
  rcases h with ((((((((((((((((((((((((rfl | rfl) | rfl) | rfl) | rfl) | rfl) | rfl) | rfl) | rfl) | rfl) | rfl) | rfl) | rfl) | rfl) | rfl) | rfl) | rfl) | rfl) | rfl) | rfl) | rfl) | rfl) | rfl) | rfl) | rfl) <;>
    (cases fuel with
     | zero => rfl
     | succ n => rfl)

/-- A blank string (empty or all JavaScript whitespace) is not valid JSON. -/
theorem parseJsonValue_blank_none : ∀ (cs : List Char),
    cs.all jsWhitespace = true →
    ∀ fuel : Nat, parseJsonValue fuel (skipWs cs) = none := by
  intro cs
  induction cs with
  | nil =>
    intro _ fuel
    cases fuel with
    | zero => rfl
    | succ n => rfl
  | cons c cs2 ih =>
    intro h fuel
    rw [List.all_cons, Bool.and_eq_true] at h
    simp only [skipWs]
    by_cases hws : jsonWs c = true
    · rw [if_pos hws]
      exact ih h.2 fuel
    · rw [if_neg hws]
      exact parseJsonValue_ws_none c h.1 fuel cs2

theorem parseJson_blank (s : String) (h : isBlankString s = true) :
    parseJson s = none := by
  simp only [parseJson]
  rw [parseJsonValue_blank_none s.toList h (s.toList.length + 1)]

/-- C9.  `formatOutput` returns the parsed JSON structure exactly when the
string parses as JSON, and the original string unchanged otherwise; the
spec's two examples hold; and the pod-log, job-output and cron-trigger-output
values are all produced by this same formatter. -/
theorem spec_C9_format_output :
    (∀ (s : String) (j : Json), parseJson s = some j →
      formatOutput (.str s) = .json j)
    ∧ (∀ s : String, parseJson s = none → formatOutput (.str s) = .str s)
    ∧ formatOutput (.str "\x7b\"a\":1\x7d") = .json (.obj [("a", .num "1")])
    ∧ formatOutput (.str "plain text") = .str "plain text"
    ∧ (∀ s, retrievePodLogsValue s = formatOutput (.str s)
        ∧ runJobOutputValue s = formatOutput (.str s)
        ∧ triggerCronJobOutputValue s = formatOutput (.str s)) := by
  refine ⟨?_, ?_, rfl, rfl, fun s => ⟨rfl, rfl, rfl⟩⟩
  · intro s j h
    have hb : isBlankString s = false := by
      cases hbb : isBlankString s with
      | false => rfl
      | true => rw [parseJson_blank s hbb] at h; exact Option.noConfusion h
    simp only [formatOutput, hb, Bool.false_eq_true, if_false, h]
  · intro s h
    simp only [formatOutput, h]
    split
    · rfl
    · rfl

/-- C9 witness: the theorem applied to a concrete JSON log line. -/
theorem spec_C9_witness :
    formatOutput (.str "[1,2]") = .json (.arr [.num "1", .num "2"]) :=
  spec_C9_format_output.1 "[1,2]" (.arr [.num "1", .num "2"]) rfl

/-! ## Lemmas about createResource (C10) -/

theorem lookupKey_replace (k v : String) : ∀ l : List (String × String),
    (l.any (fun p => p.1 == k)) = true →
    lookupKey (l.map (fun p => if p.1 == k then (p.1, v) else p)) k = some v := by
  intro l
  induction l with
  | nil => intro h; exact absurd h (by simp)
  | cons p l2 ih =>
    intro h
    rw [List.any_cons, Bool.or_eq_true] at h
    by_cases hp : (p.1 == k) = true
    · simp [lookupKey, List.find?, hp]
    · have h2 : (l2.any (fun p => p.1 == k)) = true := by
        rcases h with h1 | h1
        · exact absurd h1 hp
        · exact h1
      have hp2 : (p.1 == k) = false := by
        cases hb : (p.1 == k) with
        | false => rfl
        | true => exact absurd hb hp
      simp only [List.map_cons, hp2, Bool.false_eq_true, if_false, lookupKey,
        List.find?, cond_false] at ih ⊢
      exact ih h2

theorem lookupKey_append_new (k v : String) : ∀ l : List (String × String),
    (l.any (fun p => p.1 == k)) = false →
    lookupKey (l ++ [(k, v)]) k = some v := by
  intro l
  induction l with
  | nil => simp [lookupKey]
  | cons p l2 ih =>
    intro h
    rw [List.any_cons, Bool.or_eq_false_iff] at h
    simp only [List.cons_append, lookupKey, List.find?, h.1, cond_false] at ih ⊢
    exact ih h.2

/-- Setting a key on a JavaScript object makes lookup of that key return the
assigned value. -/
theorem lookupKey_jsObjectSet (l : List (String × String)) (k v : String) :
    lookupKey (jsObjectSet l k v) k = some v := by
  simp only [jsObjectSet]
  split
  · exact lookupKey_replace k v l (by assumption)
  · refine lookupKey_append_new k v l ?_
    rename_i hany
    cases ha : l.any (fun p => p.1 == k) with
    | false => rfl
    | true => exact absurd ha hany

theorem cleanResourceData_metadata (r : Manifest) :
    (cleanResourceData r).metadata = r.metadata.map cleanMetadata := by
  simp only [cleanResourceData]
  split <;> rfl

theorem cleanResourceData_status (r : Manifest) :
    (cleanResourceData r).status = none := by
  simp only [cleanResourceData]
  split <;> rfl

/-- Cleaning preserves the presence of `spec.template`. -/
theorem cleanResourceData_template (r : Manifest) (sp : ManifestSpec)
    (t : PodTemplate) (hs : r.spec = some sp) (ht : sp.template = some t) :
    ∃ sp2 t2, (cleanResourceData r).spec = some sp2 ∧ sp2.template = some t2 := by
  simp only [cleanResourceData, hs]
  split <;> split <;> simp [ht]

theorem createResourceBody_metadata (r : Manifest) :
    (createResourceBody r).metadata
      = some { (cleanResourceData r).metadata.getD emptyManifestMetadata with
               labels := some (jsObjectSet
                 (((cleanResourceData r).metadata.getD
                     emptyManifestMetadata).labels.getD [])
                 "managed-by-automation" "n8n") } := by
  simp only [createResourceBody]
  split
  · split <;> rfl
  · rfl

theorem createResourceBody_status (r : Manifest) :
    (createResourceBody r).status = none := by
  have h : (createResourceBody r).status = (cleanResourceData r).status := by
    simp only [createResourceBody]
    split
    · split <;> rfl
    · rfl
  rw [h, cleanResourceData_status]

/-- The nine runtime metadata fields are absent after cleaning, whether or not
the manifest had metadata at all. -/
theorem cleanMetadata_runtime_fields (mo : Option ManifestMetadata) :
    let m := (mo.map cleanMetadata).getD emptyManifestMetadata
    m.creationTimestamp = none ∧ m.deletionTimestamp = none
    ∧ m.resourceVersion = none ∧ m.uid = none ∧ m.generation = none
    ∧ m.managedFields = none ∧ m.ownerReferences = none
    ∧ m.finalizers = none ∧ m.selfLink = none := by
  cases mo with
  | none => exact ⟨rfl, rfl, rfl, rfl, rfl, rfl, rfl, rfl, rfl⟩
  | some m => exact ⟨rfl, rfl, rfl, rfl, rfl, rfl, rfl, rfl, rfl⟩

/-- When the manifest has a pod template, the sent body's template metadata
carries the `managed-by-automation: n8n` label. -/
theorem createResourceBody_template_label (r : Manifest) (sp : ManifestSpec)
    (t : PodTemplate) (hs : r.spec = some sp) (ht : sp.template = some t) :
    ∃ sp2 t2 tm ls, (createResourceBody r).spec = some sp2
      ∧ sp2.template = some t2 ∧ t2.metadata = some tm ∧ tm.labels = some ls
      ∧ lookupKey ls "managed-by-automation" = some "n8n" := by
  obtain ⟨sp2, t2, hsp2, ht2⟩ := cleanResourceData_template r sp t hs ht
  have hbody : (createResourceBody r).spec
      = some { sp2 with
               template := some { t2 with metadata := some (managedTemplateMetadata t2) } } := by
    simp only [createResourceBody, hsp2, ht2, managedTemplateMetadata]
  exact ⟨_, _, _, _, hbody, rfl, rfl, rfl, lookupKey_jsObjectSet _ _ _⟩

/-- C10.  `createResource` leaves the caller's manifest untouched (it deep
copies before cleaning); the body it sends is the cleaned copy: the nine
metadata runtime fields and the whole `status` are absent, the
`managed-by-automation: n8n` label is present on `metadata.labels`, and when
the manifest has a `spec.template` the sent template's metadata carries the
label as well. -/
theorem spec_C10_create_resource (r : Manifest) :
    (createResourcePrepare r).1 = r
    ∧ (createResourcePrepare r).2 = createResourceBody r
    ∧ (∃ m, (createResourceBody r).metadata = some m
        ∧ m.creationTimestamp = none ∧ m.deletionTimestamp = none
        ∧ m.resourceVersion = none ∧ m.uid = none ∧ m.generation = none
        ∧ m.managedFields = none ∧ m.ownerReferences = none
        ∧ m.finalizers = none ∧ m.selfLink = none
        ∧ ∃ ls, m.labels = some ls
            ∧ lookupKey ls "managed-by-automation" = some "n8n")
    ∧ (createResourceBody r).status = none
    ∧ (∀ sp t, r.spec = some sp → sp.template = some t →
        ∃ sp2 t2 tm ls, (createResourceBody r).spec = some sp2
          ∧ sp2.template = some t2 ∧ t2.metadata = some tm
          ∧ tm.labels = some ls
          ∧ lookupKey ls "managed-by-automation" = some "n8n") := by
  refine ⟨rfl, rfl, ?_, createResourceBody_status r, ?_⟩
  · cases hmo : r.metadata with
    | none =>
      refine ⟨{ emptyManifestMetadata with labels := some (jsObjectSet []
          "managed-by-automation" "n8n") }, ?_, rfl, rfl, rfl, rfl, rfl, rfl,
          rfl, rfl, rfl, ⟨_, rfl, lookupKey_jsObjectSet _ _ _⟩⟩
      rw [createResourceBody_metadata, cleanResourceData_metadata, hmo]
      rfl
    | some m0 =>
      refine ⟨{ cleanMetadata m0 with labels := some (jsObjectSet
          ((cleanMetadata m0).labels.getD []) "managed-by-automation" "n8n") },
          ?_, rfl, rfl, rfl, rfl, rfl, rfl, rfl, rfl, rfl,
          ⟨_, rfl, lookupKey_jsObjectSet _ _ _⟩⟩
      rw [createResourceBody_metadata, cleanResourceData_metadata, hmo]
      rfl
  · intro sp t hs ht
    exact createResourceBody_template_label r sp t hs ht

/-- C10 witness: the theorem applied to a Deployment manifest with runtime
fields, a status, and a pod template. -/
theorem spec_C10_witness :
    (createResourcePrepare sampleDeploymentManifest).1 = sampleDeploymentManifest
    ∧ (createResourceBody sampleDeploymentManifest).status = none
    ∧ (∃ sp2 t2 tm ls,
        (createResourceBody sampleDeploymentManifest).spec = some sp2
        ∧ sp2.template = some t2 ∧ t2.metadata = some tm ∧ tm.labels = some ls
        ∧ lookupKey ls "managed-by-automation" = some "n8n") :=
  ⟨(spec_C10_create_resource sampleDeploymentManifest).1,
   (spec_C10_create_resource sampleDeploymentManifest).2.2.2.1,
   (spec_C10_create_resource sampleDeploymentManifest).2.2.2.2
     { template := some { metadata := none }, nodeName := none, containers := none }
     { metadata := none } rfl rfl⟩
